import Mathlib

/-!
Verification of the SSO orchestration core of saml-test-idp.

A shallow embedding, in Lean 4, of the orchestration logic of the
`breakroom/saml-test-idp` Go program:

* the service-provider registry (`internal/idp/sp_provider.go`:
  `NewServiceProviderProvider`, `createEntry`, `GetServiceProviderConfig`);
* the pending-request store (`internal/idp/session.go`: `SessionProvider`,
  `StorePendingRequest`, `GetPendingRequest`, `DeletePendingRequest`,
  `GetSession`);
* the NameID-format table (`internal/idp/nameid.go`: `NameIDFormats`,
  `GetNameIDFormat`, `GetNameIDFormatString`);
* the attribute mapper (`internal/idp/session.go`: `buildCustomAttributes`,
  `attributeValues`, on top of `spf13/cast` v1.10.0 conversions);
* the HTTP flow handlers (`internal/idp/handlers.go`: `handleSSO`,
  `handleLogin`/`processLogin`), modelled after the external request
  validator and assertion signer have been cut away at their interfaces.

Go maps are modelled as association lists without duplicate keys (iteration
order of a Go map is unspecified, so list order carries no meaning); `time.Time`
is modelled as `Nat` (seconds); Go `nil` pointers become `Option`.
-/

/-! ## Maps as association lists

`map[string]*T` is modelled as `List (String × α)`.  `mapInsert` and
`mapErase` keep the no-duplicate-keys representation invariant that every
Go map has, so `mapErase` removes every binding of the key. -/

/-- Model of Go map lookup `v, ok := m[k]`: first binding of `k`, if any. -/
def mapLookup {α : Type} : List (String × α) → String → Option α
  | [], _ => none
  | (k', v) :: rest, k => if k' = k then some v else mapLookup rest k

/-- Model of Go `delete(m, k)`: removes every binding of `k` (there is at
most one under the representation invariant). -/
def mapErase {α : Type} : List (String × α) → String → List (String × α)
  | [], _ => []
  | (k', v) :: rest, k =>
      if k' = k then mapErase rest k else (k', v) :: mapErase rest k

/-- Model of Go map assignment `m[k] = v`: bind `k` to `v`, dropping any
previous binding. -/
def mapInsert {α : Type} (m : List (String × α)) (k : String) (v : α) :
    List (String × α) :=
  (k, v) :: mapErase m k

theorem mapLookup_mapInsert_self {α : Type} (m : List (String × α))
    (k : String) (v : α) : mapLookup (mapInsert m k v) k = some v := by
  simp [mapInsert, mapLookup]

theorem mapLookup_mapErase_self {α : Type} (m : List (String × α))
    (k : String) : mapLookup (mapErase m k) k = none := by
  induction m with
  | nil => simp [mapErase, mapLookup]
  | cons p rest ih =>
      obtain ⟨k', v⟩ := p
      by_cases h : k' = k
      · simpa [mapErase, h] using ih
      · simpa [mapErase, mapLookup, h] using ih

theorem mapLookup_mapErase_ne {α : Type} (m : List (String × α))
    (k k' : String) (h : k' ≠ k) :
    mapLookup (mapErase m k) k' = mapLookup m k' := by
  induction m with
  | nil => simp [mapErase]
  | cons p rest ih =>
      obtain ⟨k₀, v⟩ := p
      by_cases hk : k₀ = k
      · subst hk
        simp [mapErase, mapLookup, ih, Ne.symm h]
      · simp [mapErase, mapLookup, hk, ih]

theorem mapLookup_mapInsert_ne {α : Type} (m : List (String × α))
    (k k' : String) (v : α) (h : k' ≠ k) :
    mapLookup (mapInsert m k v) k' = mapLookup m k' := by
  have h2 := mapLookup_mapErase_ne m k k' h
  simp [mapInsert, mapLookup, Ne.symm h, h2]

/-- Keys bound in the map. -/
def mapKeys {α : Type} (m : List (String × α)) : List String :=
  m.map Prod.fst

theorem mapLookup_isSome_iff_mem_keys {α : Type} (m : List (String × α))
    (k : String) : (mapLookup m k).isSome = true ↔ k ∈ mapKeys m := by
  induction m with
  | nil => simp [mapLookup, mapKeys]
  | cons p rest ih =>
      obtain ⟨k₀, v⟩ := p
      by_cases hk : k₀ = k
      · simp [mapLookup, mapKeys, hk]
      · simp [mapLookup, mapKeys, hk, ih, Ne.symm hk]

theorem mapKeys_mapErase_subset {α : Type} (m : List (String × α))
    (k : String) : mapKeys (mapErase m k) ⊆ mapKeys m := by
  induction m with
  | nil => simp [mapErase]
  | cons p rest ih =>
      obtain ⟨k₀, v⟩ := p
      by_cases hk : k₀ = k
      · simp only [mapErase, if_pos hk]
        exact fun a ha => by
          simp only [mapKeys, List.map_cons, List.mem_cons]
          exact Or.inr (ih ha)
      · simp only [mapErase, if_neg hk]
        intro a ha
        simp only [mapKeys, List.map_cons, List.mem_cons] at ha ⊢
        rcases ha with h1 | h2
        · exact Or.inl h1
        · exact Or.inr (ih h2)

theorem mapKeys_mapErase_nodup {α : Type} (m : List (String × α))
    (k : String) (h : (mapKeys m).Nodup) : (mapKeys (mapErase m k)).Nodup := by
  induction m with
  | nil => simpa [mapErase] using h
  | cons p rest ih =>
      obtain ⟨k₀, v⟩ := p
      simp only [mapKeys, List.map_cons, List.nodup_cons] at h
      by_cases hk : k₀ = k
      · simpa [mapErase, hk] using ih h.2
      · simp only [mapErase, if_neg hk, mapKeys, List.map_cons, List.nodup_cons]
        refine ⟨fun hmem => h.1 ?_, by simpa [mapKeys] using ih h.2⟩
        exact mapKeys_mapErase_subset rest k (by simpa [mapKeys] using hmem)

theorem mapKeys_mapInsert_nodup {α : Type} (m : List (String × α))
    (k : String) (v : α) (h : (mapKeys m).Nodup) :
    (mapKeys (mapInsert m k v)).Nodup := by
  simp only [mapInsert, mapKeys, List.map_cons, List.nodup_cons]
  refine ⟨fun hmem => ?_, by simpa [mapKeys] using mapKeys_mapErase_nodup m k h⟩
  have := (mapLookup_isSome_iff_mem_keys (mapErase m k) k).mpr
    (by simpa [mapKeys] using hmem)
  rw [mapLookup_mapErase_self] at this
  simp at this


/-! ## Configuration model (`internal/config/config.go`)

YAML attribute values (`map[string]interface{}`) are modelled by the
inductive `ConfigValue`: the scalar shapes YAML produces (string, bool,
integer, null) plus lists. -/

/-- A configured attribute value: Go `interface{}` as produced by YAML. -/
inductive ConfigValue : Type where
  | str (s : String)
  | bool (b : Bool)
  | int (n : Int)
  | null
  | list (xs : List ConfigValue)

/-- Model of `config.User`: a test user with attributes.  The Go attribute map is an
association list here (Go map iteration order is unspecified). -/
structure User : Type where
  name : String
  nameID : String
  attributes : List (String × ConfigValue)

/-- Model of `config.ServiceProvider`: a configured SP with its users.  The unexported
`baseDir` field only affects file-path resolution, which lives behind the
metadata-loading oracle below, so it is not modelled. -/
structure ServiceProvider : Type where
  entityID : String
  acsURL : String
  metadataFile : String
  nameIDFormat : String
  users : List User

/-- Model of `ServiceProvider.GetUserByName`: first user whose `Name` equals `name`,
or Go `nil` (`none`). -/
def GetUserByName (sp : ServiceProvider) (name : String) : Option User :=
  sp.users.find? (fun u => u.name == name)

/-! ## NameID formats (`internal/idp/nameid.go`)

The four `crewjam/saml` format URI constants, and the keyword table.
`NameIDFormats` is a Go map; it is modelled as an association list in the
source's textual order.  Its four values are pairwise distinct strings, so
the value-to-key search in `GetNameIDFormatString` is deterministic even
though Go map iteration order is not. -/

def EmailAddressNameIDFormat : String :=
  "urn:oasis:names:tc:SAML:1.1:nameid-format:emailAddress"

def PersistentNameIDFormat : String :=
  "urn:oasis:names:tc:SAML:2.0:nameid-format:persistent"

def TransientNameIDFormat : String :=
  "urn:oasis:names:tc:SAML:2.0:nameid-format:transient"

def UnspecifiedNameIDFormat : String :=
  "urn:oasis:names:tc:SAML:1.1:nameid-format:unspecified"

/-- Model of `NameIDFormats`: friendly config names to SAML NameID format URIs. -/
def NameIDFormats : List (String × String) :=
  [ ("email", EmailAddressNameIDFormat),
    ("persistent", PersistentNameIDFormat),
    ("transient", TransientNameIDFormat),
    ("unspecified", UnspecifiedNameIDFormat) ]

/-- Model of `GetNameIDFormat`: the SAML NameID format for a config value;
`EmailAddressNameIDFormat` as default if not found. -/
def GetNameIDFormat (format : String) : String :=
  match mapLookup NameIDFormats format with
  | some f => f
  | none => EmailAddressNameIDFormat

/-- Model of `GetNameIDFormatString`: the config-friendly name for a NameID format
(first table entry whose value matches; `"email"` if none does). -/
def GetNameIDFormatString (format : String) : String :=
  match NameIDFormats.find? (fun p => p.2 == format) with
  | some p => p.1
  | none => "email"

/-! ## The `spf13/cast` conversions (v1.10.0, per `go.mod`)

`attributeValues` calls `cast.ToStringSliceE` and `cast.ToString`.  These
are translated here for the `ConfigValue` shapes above, following the
library's `caste.go`:

* `ToStringSliceE` on `[]interface{}` stringifies each element; on a
  `string` it returns `strings.Fields` (fields separated by runs of
  `unicode.IsSpace` characters); on any other single value it returns a
  one-element slice of its `ToStringE` (which succeeds for bools and
  numbers); a `nil` interface matches no case of the type switch and falls
  to the `default` error; errors are `none`.
* `ToString` swallows the `ToStringE` error, yielding `""` for values with
  no string form (e.g. slices and `nil`). -/

/-- Model of `cast.ToString` on the modelled value shapes. -/
def castToString : ConfigValue → String
  | .str s => s
  | .bool b => if b then "true" else "false"
  | .int n => toString n
  | .null => ""
  | .list _ => ""

/-- Model of Go `unicode.IsSpace`: the Unicode White_Space property — the
Latin-1 fast path (TAB, LF, VT, FF, CR, space, NEL U+0085, NBSP U+00A0)
plus the `White_Space` table ranges (U+1680, U+2000..U+200A, U+2028,
U+2029, U+202F, U+205F, U+3000). -/
def goIsSpace (c : Char) : Bool :=
  c.toNat == 0x09 || c.toNat == 0x0A || c.toNat == 0x0B ||
  c.toNat == 0x0C || c.toNat == 0x0D || c.toNat == 0x20 ||
  c.toNat == 0x85 || c.toNat == 0xA0 || c.toNat == 0x1680 ||
  (0x2000 ≤ c.toNat && c.toNat ≤ 0x200A) ||
  c.toNat == 0x2028 || c.toNat == 0x2029 || c.toNat == 0x202F ||
  c.toNat == 0x205F || c.toNat == 0x3000

/-- Character scan behind `goFields`: `cur` is the current field read so
far, in reverse. -/
def fieldsAux : List Char → List Char → List String
  | [], cur => if cur.isEmpty then [] else [String.mk cur.reverse]
  | c :: rest, cur =>
      if goIsSpace c then
        (if cur.isEmpty then fieldsAux rest []
         else String.mk cur.reverse :: fieldsAux rest [])
      else fieldsAux rest (c :: cur)

/-- Model of `strings.Fields`: the substrings separated by runs of
`unicode.IsSpace` characters. -/
def goFields (s : String) : List String := fieldsAux s.data []

/-- Model of `cast.ToStringSliceE` on the modelled value shapes (`none` = error). -/
def toStringSliceE : ConfigValue → Option (List String)
  | .list xs => some (xs.map castToString)
  | .str s => some (goFields s)
  | .bool b => some [castToString (.bool b)]
  | .int n => some [castToString (.int n)]
  | .null => none

/-! ## Attribute mapping (`internal/idp/session.go`) -/

/-- Model of `saml.AttributeValue` (the fields `attributeValues` sets). -/
structure AttributeValue : Type where
  typ : String
  value : String
deriving DecidableEq

/-- Model of `saml.Attribute` (the fields `buildCustomAttributes` sets). -/
structure Attribute : Type where
  friendlyName : String
  name : String
  nameFormat : String
  values : List AttributeValue
deriving DecidableEq

/-- Model of `attributeValues`: converts a configured value to SAML attribute
values.  Slices with at least one element become one value per element;
everything else becomes the single `cast.ToString` of the value. -/
def attributeValues (value : ConfigValue) : List AttributeValue :=
  match toStringSliceE value with
  | some slice =>
      if slice.length > 0 then
        slice.map (fun s => { typ := "xs:string", value := s })
      else
        [{ typ := "xs:string", value := castToString value }]
  | none => [{ typ := "xs:string", value := castToString value }]

/-- The `NameFormat` constant used by `buildCustomAttributes`. -/
def BasicAttrNameFormat : String :=
  "urn:oasis:names:tc:SAML:2.0:attrname-format:basic"

/-- Model of `buildCustomAttributes`: converts user attributes to SAML attributes
(`nil` user, and a user without attributes, give an empty list). -/
def buildCustomAttributes (user : Option User) : List Attribute :=
  match user with
  | none => []
  | some u =>
      u.attributes.map (fun p =>
        { friendlyName := p.1
          name := p.1
          nameFormat := BasicAttrNameFormat
          values := attributeValues p.2 })

/-! ## Pending-request store (`internal/idp/session.go`)

The `SessionProvider`'s `pendingRequests` map, with `time.Time` as `Nat`
(seconds).  The `sync.RWMutex` serializes the operations; here each
operation is a function from the map (and the clock) to its result and the
map after the call, which is the store's sequential semantics under that
lock. -/

/-- Model of `saml.IdpAuthnRequest`: the validated-request handle produced by the
external request validator.  The core stores and forwards it but never
inspects it, so it is opaque here. -/
structure IdpAuthnRequest : Type where
  handle : Nat
deriving DecidableEq

/-- Model of `SessionData`: pending SAML request information.  `samlRequest` is a Go
pointer, hence `Option`. -/
structure SessionData : Type where
  id : String
  sp : ServiceProvider
  createTime : Nat
  expireTime : Nat
  samlRequest : Option IdpAuthnRequest

/-- The `pendingRequests` map of a `SessionProvider`. -/
def Store : Type := List (String × SessionData)

/-- Model of `NewSessionProvider`: the empty pending-request map. -/
def NewSessionProvider : Store := []

/-- The pending-request lifetime: `10 * time.Minute`, in seconds. -/
def pendingRequestLifetime : Nat := 10 * 60

/-- Model of `SessionProvider.StorePendingRequest`: stores a pending request under
`requestID`, expiring `pendingRequestLifetime` after `now`. -/
def StorePendingRequest (s : Store) (requestID : String)
    (req : Option IdpAuthnRequest) (spConfig : ServiceProvider) (now : Nat) :
    Store :=
  mapInsert s requestID
    { id := requestID
      sp := spConfig
      createTime := now
      expireTime := now + pendingRequestLifetime
      samlRequest := req }

/-- Model of `SessionProvider.GetPendingRequest`: retrieves a pending request.
Returns `nil, false` if the token is unbound, if the stored `SAMLRequest`
is `nil`, or if `session.ExpireTime.Before(now)` (strictly before `now`).
The method holds only the read lock and performs no writes, so the map
after the call — the second component — is the map it was given. -/
def GetPendingRequest (s : Store) (requestID : String) (now : Nat) :
    Option SessionData × Store :=
  match mapLookup s requestID with
  | none => (none, s)
  | some session =>
      if session.samlRequest.isNone then (none, s)
      else if session.expireTime < now then (none, s)
      else (some session, s)

/-- Model of `SessionProvider.DeletePendingRequest`: removes a pending request
(a no-op when the token is unbound, like Go `delete`). -/
def DeletePendingRequest (s : Store) (requestID : String) : Store :=
  mapErase s requestID

/-- Placeholder for Go's `http.ResponseWriter` (never inspected). -/
structure ResponseWriter : Type where
  tag : Nat

/-- Placeholder for Go's `*http.Request` (never inspected). -/
structure HTTPRequest : Type where
  tag : Nat

/-- Model of `SessionProvider.GetSession`: always returns `nil` to force showing the
login page on every SSO request.  Pointer arguments are `Option` so that
Go `nil` arguments are representable; the session state plays no role. -/
def GetSession (w : Option ResponseWriter) (r : Option HTTPRequest)
    (req : Option IdpAuthnRequest) : Option SessionData :=
  none

/-! ## Service-provider registry (`NewServiceProviderProvider`)

Reading and XML-parsing a metadata file is external I/O; it is modelled by
an oracle `readMetadata : String → Except String EntityDescriptor` standing
for `os.ReadFile` on the resolved path followed by `xml.Unmarshal`. -/

/-- Model of `saml.IndexedEndpoint` (the fields `createEntry` sets). -/
structure IndexedEndpoint : Type where
  binding : String
  location : String
  index : Nat
deriving DecidableEq

/-- Model of `saml.SPSSODescriptor` (the field `createEntry` sets). -/
structure SPSSODescriptor : Type where
  assertionConsumerServices : List IndexedEndpoint
deriving DecidableEq

/-- Model of `saml.EntityDescriptor` (the fields `createEntry` sets). -/
structure EntityDescriptor : Type where
  entityID : String
  spSSODescriptors : List SPSSODescriptor
deriving DecidableEq

/-- Model of `saml.HTTPPostBinding`. -/
def HTTPPostBinding : String := "urn:oasis:names:tc:SAML:2.0:bindings:HTTP-POST"

/-- An entry of the registry: SP metadata and configuration. -/
structure ServiceProviderEntry : Type where
  metadata : EntityDescriptor
  config : ServiceProvider

/-- The `sps` map of a `ServiceProviderProvider`. -/
def Registry : Type := List (String × ServiceProviderEntry)

/-- Model of `ServiceProviderProvider.createEntry`: from a metadata file when
`metadata_file` is set (via the oracle), else synthesized from `acs_url`,
else an error. -/
def createEntry (readMetadata : String → Except String EntityDescriptor)
    (sp : ServiceProvider) : Except String ServiceProviderEntry :=
  if sp.metadataFile ≠ "" then
    match readMetadata sp.metadataFile with
    | Except.error e => Except.error e
    | Except.ok metadata => Except.ok { metadata := metadata, config := sp }
  else if sp.acsURL ≠ "" then
    Except.ok
      { metadata :=
          { entityID := sp.entityID
            spSSODescriptors :=
              [ { assertionConsumerServices :=
                    [ { binding := HTTPPostBinding
                        location := sp.acsURL
                        index := 1 } ] } ] }
        config := sp }
  else
    Except.error "SP must have either acs_url or metadata_file"

/-- The loop body of `NewServiceProviderProvider`: fold the configured SPs
into the map, stopping at the first entry whose `createEntry` fails. -/
def buildRegistry (readMetadata : String → Except String EntityDescriptor)
    (acc : Registry) : List ServiceProvider → Except String Registry
  | [] => Except.ok acc
  | sp :: rest =>
      match createEntry readMetadata sp with
      | Except.error e =>
          Except.error ("failed to create SP entry for " ++ sp.entityID ++ ": " ++ e)
      | Except.ok entry => buildRegistry readMetadata (mapInsert acc sp.entityID entry) rest

/-- Model of `NewServiceProviderProvider`: builds the registry from the configured
SPs, starting from the empty map. -/
def NewServiceProviderProvider
    (readMetadata : String → Except String EntityDescriptor)
    (sps : List ServiceProvider) : Except String Registry :=
  buildRegistry readMetadata [] sps

/-- Model of `ServiceProviderProvider.GetServiceProviderConfig`: the configuration
registered for `entityID`, or Go `nil` (`none`). -/
def GetServiceProviderConfig (reg : Registry) (entityID : String) :
    Option ServiceProvider :=
  match mapLookup reg entityID with
  | none => none
  | some entry => some entry.config

/-! ## Flow handlers (`internal/idp/handlers.go`)

`handleSSO` is modelled from the point where the external request validator
(`saml.NewIdpAuthnRequest` + `req.Validate()`) has succeeded, and
`processLogin` up to the point where the external assertion signer
(`createAndSendResponse`) takes over; both collaborators are out of scope
per their interfaces.  The `randomHex` request/session identifiers are
surfaced as arguments (the generator is an entropy source external to the
control logic). -/

/-- The `saml.Session` value `processLogin` builds for the signer. -/
structure SamlSession : Type where
  id : String
  createTime : Nat
  expireTime : Nat
  index : String
  nameID : String
  nameIDFormat : String
  subjectID : String
  userName : String
  customAttributes : List Attribute
deriving DecidableEq

/-- The session lifetime `processLogin` uses: `5 * time.Minute`, seconds. -/
def responseSessionLifetime : Nat := 5 * 60

/-- The observable outcomes of the login POST
(`handleLogin`/`processLogin`), by the `http.Error` branch taken. -/
inductive LoginResult : Type where
  | invalidOrExpiredRequest
  | noUserSelected
  | invalidUser
  | success (session : SamlSession)
deriving DecidableEq

/-- Model of `Server.processLogin` on an already-retrieved pending session: empty
form value → "No user selected"; unknown user → "Invalid user"; otherwise
build the SAML session, hand it to the signer, and delete the pending
request (the deletion happens whether or not signing succeeds). -/
def processLogin (s : Store) (requestID : String)
    (pendingSession : SessionData) (userName sessionID : String) (now : Nat) :
    LoginResult × Store :=
  if userName = "" then (LoginResult.noUserSelected, s)
  else
    match GetUserByName pendingSession.sp userName with
    | none => (LoginResult.invalidUser, s)
    | some user =>
        (LoginResult.success
          { id := sessionID
            createTime := now
            expireTime := now + responseSessionLifetime
            index := sessionID
            nameID := user.nameID
            nameIDFormat := GetNameIDFormat pendingSession.sp.nameIDFormat
            subjectID := user.nameID
            userName := user.name
            customAttributes := buildCustomAttributes (some user) },
         DeletePendingRequest s requestID)

/-- The POST arm of `Server.handleLogin`: fetch the pending request, then
`processLogin`.  A missing/expired token → "Invalid or expired request". -/
def completeFlow (s : Store) (requestID userName sessionID : String)
    (now : Nat) : LoginResult × Store :=
  match (GetPendingRequest s requestID now).1 with
  | none => (LoginResult.invalidOrExpiredRequest, s)
  | some pendingSession => processLogin s requestID pendingSession userName sessionID now

/-- The observable outcomes of `Server.handleSSO` after request
validation. -/
inductive SSOResult : Type where
  | unknownServiceProvider
  | redirectToLogin (requestID : String)
deriving DecidableEq

/-- Model of `Server.handleSSO` after the external validator has accepted the
request: resolve the SP by its `EntityID`; unknown → "Unknown service
provider" with nothing stored; otherwise store the pending request under a
fresh `requestID` (the `randomHex 16` value, passed in) and redirect. -/
def handleSSO (reg : Registry) (s : Store) (entityID : String)
    (req : IdpAuthnRequest) (requestID : String) (now : Nat) :
    SSOResult × Store :=
  match GetServiceProviderConfig reg entityID with
  | none => (SSOResult.unknownServiceProvider, s)
  | some spConfig =>
      (SSOResult.redirectToLogin requestID,
       StorePendingRequest s requestID (some req) spConfig now)

/-! ## Concrete fixtures (for witnesses and counterexamples) -/

/-- A test identity mirroring the end-to-end scenario of the spec. -/
def userAnn : User :=
  { name := "Ann"
    nameID := "ann@example.com"
    attributes := [("role", ConfigValue.str "admin")] }

/-- A configured SP with a direct ACS endpoint and one identity. -/
def spFixture : ServiceProvider :=
  { entityID := "sp-1"
    acsURL := "https://sp-1.example.com/acs"
    metadataFile := ""
    nameIDFormat := "persistent"
    users := [userAnn] }

/-- An opaque validated-request handle. -/
def reqFixture : IdpAuthnRequest := { handle := 0 }

/-- A pending entry for `spFixture` that expires at time 5. -/
def sessAtFive : SessionData :=
  { id := "tok"
    sp := spFixture
    createTime := 0
    expireTime := 5
    samlRequest := some reqFixture }

/-- A store holding exactly the pending entry `sessAtFive` under `"tok"`. -/
def storeFixture : Store := [("tok", sessAtFive)]

/-- A metadata oracle for which every file read fails. -/
def rmNoFile : String → Except String EntityDescriptor :=
  fun _ => Except.error "read failed"

/-- First of two SPs sharing the identifier `"sp-a"`. -/
def spDupA1 : ServiceProvider :=
  { entityID := "sp-a", acsURL := "https://a1.example.com/acs"
    metadataFile := "", nameIDFormat := "email", users := [] }

/-- Second of two SPs sharing the identifier `"sp-a"`. -/
def spDupA2 : ServiceProvider :=
  { entityID := "sp-a", acsURL := "https://a2.example.com/acs"
    metadataFile := "", nameIDFormat := "email", users := [] }

/-! ## The claims -/

/-- C7: for each of the four canonical NameID-format keywords `k` in
{email, persistent, transient, unspecified}, the round-trip
`GetNameIDFormatString (GetNameIDFormat k)` equals `k`. -/
theorem nameIDFormat_roundTrip :
    GetNameIDFormatString (GetNameIDFormat "email") = "email" ∧
    GetNameIDFormatString (GetNameIDFormat "persistent") = "persistent" ∧
    GetNameIDFormatString (GetNameIDFormat "transient") = "transient" ∧
    GetNameIDFormatString (GetNameIDFormat "unspecified") = "unspecified" :=
  ⟨rfl, rfl, rfl, rfl⟩

/-- C8: for every keyword outside {email, persistent, transient,
unspecified} — including the empty string — `GetNameIDFormat` returns the
same canonical format URI as `GetNameIDFormat "email"`, with no error. -/
theorem getNameIDFormat_default (s : String)
    (h : s ∉ ["email", "persistent", "transient", "unspecified"]) :
    GetNameIDFormat s = GetNameIDFormat "email" := by
  simp only [List.mem_cons, not_or] at h
  obtain ⟨h1, h2, h3, h4, -⟩ := h
  simp [GetNameIDFormat, NameIDFormats, mapLookup,
    Ne.symm h1, Ne.symm h2, Ne.symm h3, Ne.symm h4]

/-- Witness for C8 at the two inputs the spec names. -/
theorem getNameIDFormat_default_witness :
    GetNameIDFormat "" = GetNameIDFormat "email" ∧
    GetNameIDFormat "bogus" = GetNameIDFormat "email" :=
  ⟨getNameIDFormat_default "" (by decide),
   getNameIDFormat_default "bogus" (by decide)⟩

/-- C10: for every input (response writer, request, and authentication
request, including `nil` values), `SessionProvider.GetSession` returns
`nil`, so no user session is ever reused across SSO requests. -/
theorem getSession_always_none (w : Option ResponseWriter)
    (r : Option HTTPRequest) (req : Option IdpAuthnRequest) :
    GetSession w r req = none := rfl

/-- C9: `GetPendingRequest` never mutates the store: the token-to-entry
mapping — every binding and the entry count — is identical before and
after the call, whatever the result. -/
theorem getPendingRequest_pure (s : Store) (requestID : String) (now : Nat) :
    (GetPendingRequest s requestID now).2 = s ∧
    ((GetPendingRequest s requestID now).2).length = s.length ∧
    (∀ k, mapLookup ((GetPendingRequest s requestID now).2) k = mapLookup s k) := by
  have h : (GetPendingRequest s requestID now).2 = s := by
    unfold GetPendingRequest
    cases hm : mapLookup s requestID with
    | none => rfl
    | some sess =>
        by_cases h1 : sess.samlRequest.isNone
        · simp [h1]
        · by_cases h2 : sess.expireTime < now <;> simp [h1, h2]
  exact ⟨h, by rw [h], fun k => by rw [h]⟩

/-- C2 (amended): `GetPendingRequest` returns NotFound exactly when the
token has no entry, the entry's `SAMLRequest` is absent, or the current
time is STRICTLY greater than the entry's expiry (`ExpireTime.Before(now)`);
at `now = ExpireTime` the entry is still returned. -/
theorem getPendingRequest_none_iff (s : Store) (requestID : String) (now : Nat) :
    (GetPendingRequest s requestID now).1 = none ↔
      (mapLookup s requestID = none ∨
        ∃ sess, mapLookup s requestID = some sess ∧
          (sess.samlRequest = none ∨ sess.expireTime < now)) := by
  unfold GetPendingRequest
  cases hm : mapLookup s requestID with
  | none => simp
  | some sess =>
      by_cases h1 : sess.samlRequest.isNone
      · simp [h1, Option.isNone_iff_eq_none.mp h1]
      · by_cases h2 : sess.expireTime < now <;>
          simp [h1, h2, Option.isNone_iff_eq_none.not.mp h1]

/-- C2 counterexample: an entry expiring at time 5 is still retrieved at
current time 5, although `now ≥ expiry` holds there, so "NotFound when
current time ≥ expiry" is false at the boundary. -/
theorem getPendingRequest_at_expiry_cex :
    (GetPendingRequest storeFixture "tok" 5).1 = some sessAtFive ∧
    5 ≥ sessAtFive.expireTime :=
  ⟨rfl, by decide⟩

/-- C1: consumption is single-use and terminal: after an entry is stored
for a token, `GetPendingRequest` before `DeletePendingRequest` finds it
(within its lifetime), and after `DeletePendingRequest` it returns
NotFound at every later time — the token cannot produce two responses in
sequential execution. -/
theorem singleUseToken (s : Store) (requestID : String)
    (req : IdpAuthnRequest) (spc : ServiceProvider) (t₀ t₁ t₂ : Nat)
    (h : t₁ ≤ t₀ + pendingRequestLifetime) :
    ((GetPendingRequest (StorePendingRequest s requestID (some req) spc t₀)
        requestID t₁).1).isSome = true ∧
    (GetPendingRequest
        (DeletePendingRequest
          (StorePendingRequest s requestID (some req) spc t₀) requestID)
        requestID t₂).1 = none := by
  constructor
  · unfold GetPendingRequest StorePendingRequest
    rw [mapLookup_mapInsert_self]
    simp [Nat.not_lt.mpr h]
  · unfold GetPendingRequest DeletePendingRequest
    rw [mapLookup_mapErase_self]

/-- Witness for C1 on a concrete store and token. -/
theorem singleUseToken_witness :
    ((GetPendingRequest (StorePendingRequest [] "tok" (some reqFixture) spFixture 0)
        "tok" 0).1).isSome = true ∧
    (GetPendingRequest
        (DeletePendingRequest
          (StorePendingRequest [] "tok" (some reqFixture) spFixture 0) "tok")
        "tok" 1000).1 = none :=
  singleUseToken [] "tok" reqFixture spFixture 0 0 1000 (by decide)

/-- C4 (amended): `attributeValues` emits, for a non-empty list, one claim
value per element preserving order; for a single boolean or number,
exactly one claim value equal to its string representation; a single
STRING, however, is split into its fields — separated by runs of
`unicode.IsSpace` characters — with one claim value per field (so a
string without such whitespace yields exactly one value equal to itself,
and a string with no fields yields one value equal to the string);
`buildCustomAttributes` wraps `attributeValues` per attribute. -/
theorem attributeValues_amended :
    (∀ xs : List ConfigValue, xs ≠ [] →
      attributeValues (ConfigValue.list xs) =
        xs.map (fun x => { typ := "xs:string", value := castToString x })) ∧
    (∀ b : Bool, attributeValues (ConfigValue.bool b) =
      [{ typ := "xs:string", value := castToString (ConfigValue.bool b) }]) ∧
    (∀ n : Int, attributeValues (ConfigValue.int n) =
      [{ typ := "xs:string", value := castToString (ConfigValue.int n) }]) ∧
    (∀ s : String, attributeValues (ConfigValue.str s) =
      if goFields s = [] then [{ typ := "xs:string", value := s }]
      else (goFields s).map (fun t => { typ := "xs:string", value := t })) ∧
    (∀ (nm nid attrName : String) (v : ConfigValue),
      buildCustomAttributes
          (some { name := nm, nameID := nid, attributes := [(attrName, v)] }) =
        [{ friendlyName := attrName, name := attrName,
           nameFormat := BasicAttrNameFormat,
           values := attributeValues v }]) := by
  refine ⟨?_, fun b => rfl, fun n => rfl, ?_, fun nm nid attrName v => rfl⟩
  · intro xs hxs
    have hlen : 0 < xs.length := List.length_pos.mpr hxs
    simp [attributeValues, toStringSliceE, hlen, List.map_map, Function.comp]
  · intro s
    by_cases h : goFields s = []
    · simp [attributeValues, toStringSliceE, h, castToString]
    · have hlen : 0 < (goFields s).length := List.length_pos.mpr h
      simp [attributeValues, toStringSliceE, h, hlen]

/-- Witness for C4 (amended) on the spec's `groups` example. -/
theorem attributeValues_amended_witness :
    attributeValues (ConfigValue.list [ConfigValue.str "a", ConfigValue.str "b"]) =
      [{ typ := "xs:string", value := "a" }, { typ := "xs:string", value := "b" }] := by
  have h := attributeValues_amended.1 [ConfigValue.str "a", ConfigValue.str "b"]
    (by simp)
  simpa using h

/-- C4 counterexample: the single scalar string `"a b"` yields TWO claim
values (`strings.Fields` splitting inside `cast.ToStringSliceE`), not one
value equal to its string representation. -/
theorem attributeValues_scalar_string_cex :
    attributeValues (ConfigValue.str "a b") =
      [{ typ := "xs:string", value := "a" }, { typ := "xs:string", value := "b" }] ∧
    (attributeValues (ConfigValue.str "a b")).length ≠ 1 :=
  ⟨rfl, by decide⟩

/-- C5 (amended): on a still-valid token, a NONEMPTY display name absent
from the entry's SP returns "Invalid user" (UnknownIdentity) and leaves
the entry unconsumed; a later call with a present (nonempty) name still
succeeds, consuming the entry, and a third call then fails with "Invalid
or expired request".  (The empty display name takes the separate
"No user selected" branch — see the counterexample — but also leaves the
entry unconsumed.) -/
theorem completeFlow_unknownIdentity (s : Store)
    (requestID badName goodName sid sid' : String) (sess : SessionData)
    (user : User) (now now' now'' : Nat)
    (hlook : mapLookup s requestID = some sess)
    (hreq : sess.samlRequest.isNone = false)
    (hexp : ¬ sess.expireTime < now)
    (hexp' : ¬ sess.expireTime < now')
    (hbadne : badName ≠ "")
    (hbad : GetUserByName sess.sp badName = none)
    (hgoodne : goodName ≠ "")
    (hgood : GetUserByName sess.sp goodName = some user) :
    completeFlow s requestID badName sid now = (LoginResult.invalidUser, s) ∧
    (∃ resp, completeFlow s requestID goodName sid now' =
      (LoginResult.success resp, DeletePendingRequest s requestID)) ∧
    (completeFlow (DeletePendingRequest s requestID) requestID goodName sid'
      now'').1 = LoginResult.invalidOrExpiredRequest := by
  refine ⟨?_, ?_, ?_⟩
  · simp [completeFlow, GetPendingRequest, hlook, hreq, hexp, processLogin,
      hbadne, hbad]
  · refine ⟨{ id := sid
              createTime := now'
              expireTime := now' + responseSessionLifetime
              index := sid
              nameID := user.nameID
              nameIDFormat := GetNameIDFormat sess.sp.nameIDFormat
              subjectID := user.nameID
              userName := user.name
              customAttributes := buildCustomAttributes (some user) }, ?_⟩
    simp [completeFlow, GetPendingRequest, hlook, hreq, hexp', processLogin,
      hgoodne, hgood]
  · have herase := mapLookup_mapErase_self s requestID
    simp [completeFlow, GetPendingRequest, DeletePendingRequest, herase]

/-- Witness for C5 (amended) on the concrete fixture store. -/
theorem completeFlow_unknownIdentity_witness :
    completeFlow storeFixture "tok" "Bob" "sid" 0 =
      (LoginResult.invalidUser, storeFixture) ∧
    (∃ resp, completeFlow storeFixture "tok" "Ann" "sid" 0 =
      (LoginResult.success resp, DeletePendingRequest storeFixture "tok")) ∧
    (completeFlow (DeletePendingRequest storeFixture "tok") "tok" "Ann" "sid2"
      0).1 = LoginResult.invalidOrExpiredRequest :=
  completeFlow_unknownIdentity storeFixture "tok" "Bob" "Ann" "sid" "sid2"
    sessAtFive userAnn 0 0 0 rfl rfl (by decide) (by decide) (by decide) rfl
    (by decide) rfl

/-- C5 counterexample: the empty display name — absent from the fixture
SP's identity list — is answered with "No user selected", not with
"Invalid user" (UnknownIdentity), though the entry is likewise left
unconsumed. -/
theorem completeFlow_emptyName_cex :
    completeFlow storeFixture "tok" "" "sid" 0 =
      (LoginResult.noUserSelected, storeFixture) ∧
    GetUserByName spFixture "" = none ∧
    LoginResult.noUserSelected ≠ LoginResult.invalidUser :=
  ⟨rfl, rfl, by decide⟩

/-- C6: `handleSSO` with a requester `EntityID` absent from the registry
reports "Unknown service provider" and leaves the pending-request store
completely unchanged, its entry count included. -/
theorem handleSSO_unknownRequester (reg : Registry) (s : Store)
    (entityID : String) (req : IdpAuthnRequest) (requestID : String)
    (now : Nat) (h : GetServiceProviderConfig reg entityID = none) :
    handleSSO reg s entityID req requestID now =
      (SSOResult.unknownServiceProvider, s) ∧
    ((handleSSO reg s entityID req requestID now).2).length = s.length ∧
    (∀ k, mapLookup ((handleSSO reg s entityID req requestID now).2) k =
      mapLookup s k) := by
  have heq : handleSSO reg s entityID req requestID now =
      (SSOResult.unknownServiceProvider, s) := by
    unfold handleSSO
    rw [h]
  exact ⟨heq, by rw [heq], fun k => by rw [heq]⟩

/-- Witness for C6 on the empty registry. -/
theorem handleSSO_unknownRequester_witness :
    handleSSO [] storeFixture "sp-x" reqFixture "rid" 0 =
      (SSOResult.unknownServiceProvider, storeFixture) ∧
    ((handleSSO [] storeFixture "sp-x" reqFixture "rid" 0).2).length =
      storeFixture.length ∧
    (∀ k, mapLookup ((handleSSO [] storeFixture "sp-x" reqFixture "rid" 0).2) k =
      mapLookup storeFixture k) :=
  handleSSO_unknownRequester [] storeFixture "sp-x" reqFixture "rid" 0 rfl

theorem mapLookup_mapInsert_isSome {α : Type} (m : List (String × α))
    (k₀ k : String) (v : α) :
    (mapLookup (mapInsert m k₀ v) k).isSome = true ↔
      (k = k₀ ∨ (mapLookup m k).isSome = true) := by
  by_cases hk : k = k₀
  · subst hk
    rw [mapLookup_mapInsert_self]
    simp
  · rw [mapLookup_mapInsert_ne m k₀ k v hk]
    simp [hk]

theorem createEntry_isOk_iff (rm : String → Except String EntityDescriptor)
    (sp : ServiceProvider) :
    (createEntry rm sp).isOk = true ↔
      ((sp.metadataFile ≠ "" ∧ (rm sp.metadataFile).isOk = true) ∨
       (sp.metadataFile = "" ∧ sp.acsURL ≠ "")) := by
  unfold createEntry
  by_cases h1 : sp.metadataFile = ""
  · by_cases h2 : sp.acsURL = "" <;> simp [h1, h2, Except.isOk, Except.toBool]
  · cases hrm : rm sp.metadataFile <;>
      simp [h1, hrm, Except.isOk, Except.toBool]

theorem buildRegistry_ok_of_all (rm : String → Except String EntityDescriptor)
    (sps : List ServiceProvider) (acc : Registry)
    (hacc : (mapKeys acc).Nodup)
    (h : ∀ sp ∈ sps, (createEntry rm sp).isOk = true) :
    ∃ reg, buildRegistry rm acc sps = Except.ok reg ∧
      (mapKeys reg).Nodup ∧
      (∀ k, (mapLookup reg k).isSome = true ↔
        ((mapLookup acc k).isSome = true ∨
          k ∈ sps.map ServiceProvider.entityID)) := by
  induction sps generalizing acc with
  | nil =>
      exact ⟨acc, rfl, hacc, fun k => by simp⟩
  | cons sp rest ih =>
      have hsp := h sp (List.mem_cons_self sp rest)
      cases hce : createEntry rm sp with
      | error e => rw [hce] at hsp; simp [Except.isOk, Except.toBool] at hsp
      | ok entry =>
          have hstep : buildRegistry rm acc (sp :: rest) =
              buildRegistry rm (mapInsert acc sp.entityID entry) rest := by
            simp only [buildRegistry]
            rw [hce]
          obtain ⟨reg, hreg, hnodup, hiff⟩ :=
            ih (mapInsert acc sp.entityID entry)
              (mapKeys_mapInsert_nodup acc sp.entityID entry hacc)
              (fun q hq => h q (List.mem_cons_of_mem sp hq))
          refine ⟨reg, hstep.trans hreg, hnodup, fun k => ?_⟩
          rw [hiff k, mapLookup_mapInsert_isSome]
          simp [List.mem_cons, or_assoc, or_comm, or_left_comm]

theorem buildRegistry_error_at (rm : String → Except String EntityDescriptor)
    (pre : List ServiceProvider) (sp : ServiceProvider)
    (post : List ServiceProvider) (acc : Registry)
    (hpre : ∀ q ∈ pre, (createEntry rm q).isOk = true)
    (hsp : (createEntry rm sp).isOk = false) :
    ∃ msg, buildRegistry rm acc (pre ++ sp :: post) =
      Except.error ("failed to create SP entry for " ++ sp.entityID ++ ": " ++ msg) := by
  induction pre generalizing acc with
  | nil =>
      cases hce : createEntry rm sp with
      | error e =>
          refine ⟨e, ?_⟩
          simp only [List.nil_append, buildRegistry]
          rw [hce]
      | ok entry => rw [hce] at hsp; simp [Except.isOk, Except.toBool] at hsp
  | cons q pre' ih =>
      have hq := hpre q (List.mem_cons_self q pre')
      cases hce : createEntry rm q with
      | error e => rw [hce] at hq; simp [Except.isOk, Except.toBool] at hq
      | ok entry =>
          have hstep : buildRegistry rm acc ((q :: pre') ++ sp :: post) =
              buildRegistry rm (mapInsert acc q.entityID entry) (pre' ++ sp :: post) := by
            simp only [List.cons_append, buildRegistry]
            rw [hce]
            rfl
          obtain ⟨msg, hmsg⟩ := ih (mapInsert acc q.entityID entry)
            (fun q' hq' => hpre q' (List.mem_cons_of_mem q hq'))
          exact ⟨msg, hstep.trans hmsg⟩

/-- C3 (amended): registry construction fails — identifying the offending
entry — exactly for the first entry whose registration fails, where an
entry registers successfully iff it names a loadable metadata file or,
failing that, a non-empty `acs_url`; duplicate `EntityID`s are NOT
rejected: the later entry silently replaces the earlier one, and on
success the registry has one entry per DISTINCT configured `EntityID`. -/
theorem newServiceProviderProvider_amended
    (rm : String → Except String EntityDescriptor)
    (sps : List ServiceProvider) :
    ((∀ sp ∈ sps, (createEntry rm sp).isOk = true) →
      ∃ reg, NewServiceProviderProvider rm sps = Except.ok reg ∧
        (mapKeys reg).Nodup ∧
        (∀ k, (mapLookup reg k).isSome = true ↔
          k ∈ sps.map ServiceProvider.entityID)) ∧
    (∀ sp, (createEntry rm sp).isOk = true ↔
      ((sp.metadataFile ≠ "" ∧ (rm sp.metadataFile).isOk = true) ∨
       (sp.metadataFile = "" ∧ sp.acsURL ≠ ""))) ∧
    (∀ pre sp post, sps = pre ++ sp :: post →
      (∀ q ∈ pre, (createEntry rm q).isOk = true) →
      (createEntry rm sp).isOk = false →
      ∃ msg, NewServiceProviderProvider rm sps =
        Except.error ("failed to create SP entry for " ++ sp.entityID ++ ": " ++ msg)) := by
  refine ⟨fun h => ?_, fun sp => createEntry_isOk_iff rm sp, ?_⟩
  · obtain ⟨reg, hreg, hnodup, hiff⟩ :=
      buildRegistry_ok_of_all rm sps [] List.nodup_nil h
    refine ⟨reg, hreg, hnodup, fun k => ?_⟩
    rw [hiff k]
    simp [mapLookup]
  · intro pre sp post hsps hpre hsp
    subst hsps
    exact buildRegistry_error_at rm pre sp post [] hpre hsp

/-- Witness for C3 (amended): a singleton configuration with a direct
endpoint builds a one-entry registry. -/
theorem newServiceProviderProvider_amended_witness :
    ∃ reg, NewServiceProviderProvider rmNoFile [spFixture] = Except.ok reg ∧
      (mapKeys reg).Nodup ∧
      (∀ k, (mapLookup reg k).isSome = true ↔
        k ∈ [spFixture].map ServiceProvider.entityID) :=
  (newServiceProviderProvider_amended rmNoFile [spFixture]).1
    (by intro sp hsp
        simp only [List.mem_singleton] at hsp
        subst hsp
        rfl)

/-- C3 counterexample: two configured SPs share the identifier `"sp-a"`,
yet construction succeeds (no duplicate check exists in the code — the
second entry silently overwrites the first, leaving one registry entry
for two configured relying parties). -/
theorem newServiceProviderProvider_duplicate_cex :
    (NewServiceProviderProvider rmNoFile [spDupA1, spDupA2]).isOk = true ∧
    spDupA1.entityID = spDupA2.entityID ∧
    (∀ reg, NewServiceProviderProvider rmNoFile [spDupA1, spDupA2] =
      Except.ok reg → reg.length = 1) := by
  refine ⟨rfl, rfl, ?_⟩
  intro reg hreg
  have : NewServiceProviderProvider rmNoFile [spDupA1, spDupA2] =
      Except.ok [("sp-a",
        { metadata :=
            { entityID := "sp-a"
              spSSODescriptors :=
                [ { assertionConsumerServices :=
                      [ { binding := HTTPPostBinding
                          location := "https://a2.example.com/acs"
                          index := 1 } ] } ] }
          config := spDupA2 })] := rfl
  rw [this] at hreg
  cases hreg
  rfl
